import Mathlib

/-!
Verification of the semantic-analysis core of `javascriptlint`
(`src/javascriptlint/lint.py`) against its natural-language specification.

The development shallowly embeds the data model and the operations of
`lint.py`:

* AST nodes (`Node`) carry exactly the fields the linted code reads:
  `kind`, `opcode`, `atom`, `node_index`, `start_offset`, `end_offset` and
  a parent back-reference.
* Python strings are embedded as `List Char` (`PyStr`) together with the
  string primitives the source uses (`strip`, `lstrip`, `lower`,
  `startswith`, `endswith`, slicing, `find`).
* Python dictionaries are embedded as association lists with
  insert-or-replace (`dictInsert`), lookup (`dictLookup`) and
  `dict.pop(key, None)` (`dictPop`).
* The scope tree (`Scope`), the closure pass `Scope._find_warnings`, the
  control-comment processor of `_lint_script_part`, the reporting gate
  `_report` of `_lint_script_parts`, the parse-error collector, the
  declaration helpers `_warn_or_declare` / formal-parameter declaration,
  and the cross-script import graph `_Script._findglobal` are translated
  function by function.

Scope identity (Python object identity of `Scope` instances) is embedded
as the path of child indices from the root of the scope tree (`ScopeId`).
-/

/-- Token kinds (`jsengine.parser.kind`) used by the embedded part of
`lint.py`. -/
inductive TokKind where
  | ASSIGN | INC | DEC | SEMI | WITH | NAME | VAR | FUNCTION | CATCH
  | COLON | RC | LC | CASE | DEFAULT | NUMBER | COMMENT
deriving DecidableEq, Repr

/-- Opcodes (`jsengine.parser.op`) used by the embedded part of
`lint.py`. -/
inductive Op where
  | ARGNAME | CLOSURE | NAMEDFUNOBJ | C_COMMENT | CPP_COMMENT
deriving DecidableEq, Repr

/-- An AST node, carrying the fields `lint.py` reads.  The parent pointer
is embedded as an optional nested node (a finite upward chain); `atom` is
the text of leaf/comment nodes. -/
inductive Node where
  | mk (kind : TokKind) (opcode : Option Op) (atom : String) (node_index : Nat)
       (start_offset : Nat) (end_offset : Nat) (parent : Option Node)
deriving Repr

def Node.kind : Node → TokKind | .mk k _ _ _ _ _ _ => k
def Node.opcode : Node → Option Op | .mk _ o _ _ _ _ _ => o
def Node.atom : Node → String | .mk _ _ a _ _ _ _ => a
def Node.node_index : Node → Nat | .mk _ _ _ i _ _ _ => i
def Node.start_offset : Node → Nat | .mk _ _ _ _ s _ _ => s
def Node.end_offset : Node → Nat | .mk _ _ _ _ _ e _ => e
def Node.parent : Node → Option Node | .mk _ _ _ _ _ _ p => p

/-! ## Python string primitives, over `List Char` -/

/-- Python strings, embedded as lists of characters. -/
abbrev PyStr := List Char

/-- Python `str.isspace` for a single character. -/
def pyIsSpace (c : Char) : Bool :=
  c = ' ' || c = '\t' || c = '\n' || c = '\r' || c = '\x0b' || c = '\x0c'

/-- Python `str.lower` for a single ASCII character. -/
def pyLowerChar (c : Char) : Char :=
  if 65 ≤ c.toNat ∧ c.toNat ≤ 90 then Char.ofNat (c.toNat + 32) else c

/-- Python `str.lower`. -/
def pyLower (s : PyStr) : PyStr := s.map pyLowerChar

/-- Python `str.lstrip()`. -/
def pyLStrip (s : PyStr) : PyStr := s.dropWhile pyIsSpace

/-- Python `str.strip()`. -/
def pyStrip (s : PyStr) : PyStr := (pyLStrip (pyLStrip s).reverse).reverse

/-- Python `str.startswith`. -/
def pyStartsWith (s pre : PyStr) : Bool := pre.isPrefixOf s

/-- Python `str.endswith`. -/
def pyEndsWith (s suf : PyStr) : Bool := suf.reverse.isPrefixOf s.reverse

/-- Python `str.find`: smallest index at which `sub` occurs, `-1` when it
does not occur. -/
def strFind (s sub : PyStr) : Int :=
  match (List.range (s.length + 1)).find? (fun i => pyStartsWith (s.drop i) sub) with
  | some i => Int.ofNat i
  | none => -1

/-! ## Python dictionaries, as association lists -/

/-- Python `d[k] = v`: replace the entry if the key is present, otherwise
append it. -/
def dictInsert {κ ν : Type} [DecidableEq κ] (k : κ) (v : ν) : List (κ × ν) → List (κ × ν)
  | [] => [(k, v)]
  | (k', v') :: rest => if k = k' then (k, v) :: rest else (k', v') :: dictInsert k v rest

/-- Python `d.pop(k, None)`: drop the entry with the given key, if any. -/
def dictPop {κ ν : Type} [DecidableEq κ] (k : κ) : List (κ × ν) → List (κ × ν)
  | [] => []
  | (k', v') :: rest => if k = k' then rest else (k', v') :: dictPop k rest

/-- Python `d.get(k)`. -/
def dictLookup {κ ν : Type} [DecidableEq κ] (k : κ) : List (κ × ν) → Option ν
  | [] => none
  | (k', v') :: rest => if k = k' then some v' else dictLookup k rest

/-! ## `_parse_control_comment` (lint.py lines 49-78) -/

/-- The fixed keyword tuple of `_parse_control_comment`, in source order
(the order matters: `ignoreall` is tested before `ignore`). -/
def controlKeywords : List PyStr :=
  ["ignoreall".toList, "ignore".toList, "end".toList, "option explicit".toList,
   "import".toList, "fallthru".toList, "pass".toList, "declare".toList,
   "unused".toList, "content-type".toList]

/-- One iteration of the keyword loop: the keyword must either match the
control comment exactly (case-insensitively) or be a prefix of it followed
by a whitespace character. -/
def keywordMatches (control kw : PyStr) : Bool :=
  pyLower control = kw ||
    (pyStartsWith (pyLower control) kw &&
      (match control.get? kw.length with
       | some c => pyIsSpace c
       | none => false))

/-- The keyword loop of `_parse_control_comment`: first matching keyword,
with the remaining parameter text stripped (the source strips twice). -/
def findKeyword (control : PyStr) : Option (PyStr × PyStr) :=
  controlKeywords.findSome? fun kw =>
    if keywordMatches control kw
    then some (kw, pyStrip (pyStrip (control.drop kw.length)))
    else none

/-- `_parse_control_comment`, acting on the comment's `atom` text.
Returns the recognized `(keyword, parms)`, or `none` when the comment is
not a control comment.  The `jsl:` prefix is matched case-insensitively
after stripping; the legacy form is wrapped in `@` on both ends. -/
def parseControlCommentAtom (atom : PyStr) : Option (PyStr × PyStr) :=
  let comment_atom := pyStrip atom
  let control? : Option PyStr :=
    if pyStartsWith (pyLower comment_atom) "jsl:".toList then
      some (pyLStrip (comment_atom.drop 4))
    else if pyStartsWith comment_atom ['@'] && pyEndsWith comment_atom ['@'] then
      some ((comment_atom.drop 1).dropLast)
    else none
  match control? with
  | none => none
  | some control => findKeyword control

/-- `_parse_control_comment` on a comment node: `(node, keyword, parms)`
or `none`. -/
def _parse_control_comment (comment : Node) : Option (Node × PyStr × PyStr) :=
  (parseControlCommentAtom comment.atom.toList).map fun kp => (comment, kp.1, kp.2)

/-! ## The reporting gate `_report` (lint.py lines 527-539) -/

/-- Outcome of one call to the gate `_report`: the finding is forwarded to
`lint_error` (`emitted`), silently discarded (`dropped`), or a `KeyError`
escapes because the diagnostic kind is unknown and `require_key` holds
(`raised`). -/
inductive GateOutcome where
  | emitted | dropped | raised
deriving DecidableEq, Repr

/-- Whether an offset falls in one of the recorded ignore ranges
(the loop `for start, end in ignores` of `_report`; both ends
inclusive). -/
def inIgnores (ignores : List (Nat × Nat)) (offset : Nat) : Bool :=
  ignores.any fun r => offset ≥ r.1 && offset ≤ r.2

/-- `_report`: first the configuration lookup (a disabled kind returns
early; a missing kind raises when `require_key`), then the ignore-range
filter, then the finding is emitted. -/
def _report (conf : String → Option Bool) (ignores : List (Nat × Nat))
    (require_key : Bool) (offset : Nat) (errname : String) : GateOutcome :=
  match conf errname with
  | some b =>
    if !b then .dropped
    else if inIgnores ignores offset then .dropped
    else .emitted
  | none =>
    if require_key then .raised
    else if inIgnores ignores offset then .dropped
    else .emitted

/-- A configuration that enables every diagnostic kind. -/
def confAll : String → Option Bool := fun _ => some true

/-! ## The control-comment loop of `_lint_script_part` (lines 427-478)

The loop walks the fragment's comments in source order, mutating
`ignores`, `start_ignore`, `declares`, `unused_identifiers`,
`import_paths`, `fallthrus` and `passes`, and reporting directive-syntax
diagnostics through `report`/`report_lint`/`_report` as it goes.  For the
diagnostic kinds issued here (`mismatch_ctrl_comments`,
`jsl_cc_not_understood`, `legacy_cc_not_understood`, `nested_comment`)
the `report` wrapper of `_lint_script_part` has no special case (those
only exist for `empty_statement` and `missing_break*`), so `report`
specializes exactly to `report_lint`, i.e. to the gate at offset
`offset or node.start_offset` with `require_key = True`.  A raised
`KeyError` aborts the loop, embedded with `Except`. -/

structure CCState where
  ignores : List (Nat × Nat)
  start_ignore : Option Node
  declares : List (PyStr × Node)
  unused_identifiers : List (PyStr × Node)
  import_paths : List PyStr
  fallthrus : List Node
  passes : List Node
  emitted : List (Nat × String)
deriving Repr

def initCCState : CCState := ⟨[], none, [], [], [], [], [], []⟩

/-- The `report` call as made from the control-comment loop: feed the gate
and record the finding when it is emitted. -/
def ccReport (conf : String → Option Bool) (st : CCState) (node : Node)
    (offset : Option Nat) (errname : String) : Except String CCState :=
  match _report conf st.ignores true (offset.getD node.start_offset) errname with
  | .raised => .error errname
  | .dropped => .ok st
  | .emitted =>
    .ok { st with emitted := st.emitted ++ [(offset.getD node.start_offset, errname)] }

/-- Modelled from the spec: `util.isidentifier` (module `util` is not
under src/); a valid identifier name is a nonempty letter-or-underscore
head followed by alphanumeric-or-underscore characters. -/
def isidentifier (s : PyStr) : Bool :=
  match s with
  | [] => false
  | c :: rest => (c.isAlpha || c = '_') && rest.all fun d => d.isAlphanum || d = '_'

/-- One iteration of the comment loop of `_lint_script_part`
(lines 428-476). -/
def processComment (conf : String → Option Bool) (st : CCState) (comment : Node) :
    Except String CCState :=
  match _parse_control_comment comment with
  | some (node, keyword, parms) =>
    if keyword = "declare".toList then
      if !isidentifier parms then ccReport conf st node none "jsl_cc_not_understood"
      else .ok { st with declares := st.declares ++ [(parms, node)] }
    else if keyword = "unused".toList then
      if !isidentifier parms then ccReport conf st node none "jsl_cc_not_understood"
      else .ok { st with unused_identifiers := st.unused_identifiers ++ [(parms, node)] }
    else if keyword = "ignore".toList then
      match st.start_ignore with
      | some _ => ccReport conf st node none "mismatch_ctrl_comments"
      | none => .ok { st with start_ignore := some node }
    else if keyword = "end".toList then
      match st.start_ignore with
      | some si =>
        .ok { st with ignores := st.ignores ++ [(si.start_offset, node.end_offset)],
                      start_ignore := none }
      | none => ccReport conf st node none "mismatch_ctrl_comments"
    else if keyword = "import".toList then
      if parms.isEmpty then ccReport conf st node none "jsl_cc_not_understood"
      else .ok { st with import_paths := st.import_paths ++ [parms] }
    else if keyword = "fallthru".toList then
      .ok { st with fallthrus := st.fallthrus ++ [node] }
    else if keyword = "pass".toList then
      .ok { st with passes := st.passes ++ [node] }
    else
      .ok st
  | none =>
    let nestedStep : Except String CCState :=
      if comment.opcode = some Op.C_COMMENT then
        let nc0 := strFind comment.atom.toList "/*".toList
        let nc : Int :=
          if nc0 < 0 && pyEndsWith comment.atom.toList ['/'] then
            Int.ofNat (comment.atom.toList.length - 1)
          else nc0
        if 0 ≤ nc then
          ccReport conf st comment (some (comment.start_offset + 2 + nc.toNat)) "nested_comment"
        else .ok st
      else .ok st
    nestedStep.bind fun st' =>
      if pyStartsWith (pyLower comment.atom.toList) "jsl:".toList then
        ccReport conf st' comment none "jsl_cc_not_understood"
      else if pyStartsWith comment.atom.toList ['@'] then
        ccReport conf st' comment none "legacy_cc_not_understood"
      else .ok st'

/-- Lines 477-478: a still-open ignore region at end of fragment is a
mismatch, reported at the opening directive's position. -/
def finishComments (conf : String → Option Bool) (st : CCState) : Except String CCState :=
  match st.start_ignore with
  | some si => ccReport conf st si none "mismatch_ctrl_comments"
  | none => .ok st

/-- The whole control-comment pass of `_lint_script_part`: the loop over
the fragment's comments in source order, then the end-of-fragment check. -/
def processComments (conf : String → Option Bool) (comments : List Node) :
    Except String CCState :=
  (comments.foldlM (processComment conf) initCCState).bind (finishComments conf)

/-! ## The parse-error collector and its surfacing (lines 346-349, 480-482) -/

/-- One collected parse error: the 3-tuple `(offset, msg, msg_args)`
appended by the `parse_error` callback. -/
structure ParseError where
  offset : Nat
  msg : String
  msg_args : List (String × String)
deriving DecidableEq, Repr

/-- The parse-error kinds silently discarded by the collector. -/
def discardedParseErrorKinds : List String :=
  ["anon_no_return_value", "no_return_value", "redeclared_var", "var_hides_arg"]

/-- The `parse_error` callback of `_lint_script_part` (lines 346-349):
append the 3-tuple unless the message kind is one of the four discarded
kinds. -/
def parse_error (acc : List ParseError) (offset : Nat) (msg : String)
    (msg_args : List (String × String)) : List ParseError :=
  if msg ∈ discardedParseErrorKinds then acc else acc ++ [⟨offset, msg, msg_args⟩]

/-- Lines 480-482: `for offset, msg in parse_errors: report_native(offset, msg)`.
Each collected entry is a 3-tuple `(offset, msg, msg_args)` (line 349), but
this loop destructures it into two targets, so Python raises `ValueError`
on the first element (and `report_native` is also applied to one argument
too few).  Embedded as an `Except` that fails as soon as the collected
list is nonempty; on the empty list the loop body never runs and nothing
is surfaced. -/
def surfaceParseErrors : List ParseError → Except String (List (Nat × String))
  | [] => Except.ok []
  | _ :: _ => Except.error "ValueError: too many values to unpack"

/-! ## The scope tree and the closure pass (`Scope`, lines 80-220) -/

/-- Declaration kinds accepted by `Scope.add_declaration`. -/
inductive DeclType where
  | arg | function | var
deriving DecidableEq, Repr

/-- One entry of a scope's `_identifiers` dictionary:
`{'node': node, 'type': type_}`. -/
structure DeclInfo where
  node : Node
  type_ : DeclType
deriving Repr

/-- Python object identity of a `Scope`, embedded as the path of child
indices from the root of the scope tree.  The root has id `[]`. -/
abbrev ScopeId := List Nat

/-- The per-scope data of a `Scope` instance: its anchor node (`None` for
the root), its `_identifiers` dictionary, and its ordered `_references`
and `_unused` event lists. -/
structure ScopeData where
  node : Option Node
  identifiers : List (PyStr × DeclInfo)
  references : List (PyStr × Node)
  unused : List (PyStr × Node)
deriving Repr

/-- A scope tree: per-scope data plus the `_kids` list. -/
inductive Scope where
  | mk (data : ScopeData) (kids : List Scope)
deriving Repr

def Scope.data : Scope → ScopeData | .mk d _ => d
def Scope.kids : Scope → List Scope | .mk _ ks => ks

/-- `Scope.resolve_identifier` along an explicit ancestor chain whose head
is the scope the search starts at: the first scope on the chain whose
`_identifiers` dictionary has the name wins, returning that scope (by id)
and the declaring node. -/
def resolve_identifier (chain : List (ScopeId × ScopeData)) (name : PyStr) :
    Option (ScopeId × Node) :=
  match chain with
  | [] => none
  | (sid, d) :: rest =>
    match dictLookup name d.identifiers with
    | some info => some (sid, info.node)
    | none => resolve_identifier rest name

/-- The bare-assignment test of `Scope._find_warnings` (lines 184-186):
the referencing node is the first child of an `ASSIGN`/`INC`/`DEC` node
whose own parent is a `SEMI` (whole-statement) node.  The source reads
`node.parent.kind` without a `None` check; references recorded by the
traversal always have a parent, and the embedding returns `false` for a
missing parent. -/
def isBareAssignmentTarget (node : Node) : Bool :=
  match node.parent with
  | some p =>
    [TokKind.ASSIGN, TokKind.INC, TokKind.DEC].contains p.kind &&
      node.node_index == 0 &&
      (match p.parent with
       | some g => g.kind = TokKind.SEMI
       | none => false)
  | none => false

/-- The working state of the closure pass: the `unreferenced` dictionary
keyed by `(scope, name)`, and the `undeclared` and `obstructive` lists. -/
structure WarnState where
  unreferenced : List ((ScopeId × PyStr) × Node)
  undeclared : List (ScopeId × PyStr × Node)
  obstructive : List (ScopeId × PyStr × Node)
deriving Repr

/-- One iteration of the reference loop of `_find_warnings`
(lines 180-192): a resolvable reference pops the `(declaring-scope, name)`
key from `unreferenced` unless it is a bare assignment/increment target;
an unresolvable reference is recorded as undeclared unless the scope is
inside a `with` scope. -/
def processReference (chain : List (ScopeId × ScopeData)) (is_in_with_scope : Bool)
    (sid : ScopeId)
    (acc : List ((ScopeId × PyStr) × Node) × List (ScopeId × PyStr × Node))
    (r : PyStr × Node) :
    List ((ScopeId × PyStr) × Node) × List (ScopeId × PyStr × Node) :=
  match resolve_identifier chain r.1 with
  | some (rsid, _) =>
    if isBareAssignmentTarget r.2 then acc
    else (dictPop (rsid, r.1) acc.1, acc.2)
  | none =>
    if is_in_with_scope then acc else (acc.1, acc.2 ++ [(sid, r.1, r.2)])

/-- One iteration of the `_unused` loop of `_find_warnings`
(lines 195-200). -/
def processUnused (chain : List (ScopeId × ScopeData)) (sid : ScopeId)
    (acc : List ((ScopeId × PyStr) × Node) × List (ScopeId × PyStr × Node))
    (r : PyStr × Node) :
    List ((ScopeId × PyStr) × Node) × List (ScopeId × PyStr × Node) :=
  match resolve_identifier chain r.1 with
  | some (rsid, _) => (dictPop (rsid, r.1) acc.1, acc.2)
  | none => (acc.1, acc.2 ++ [(sid, r.1, r.2)])

mutual
/-- `Scope._find_warnings` (lines 151-204): seed `unreferenced` with this
scope's declarations, record names that hide an ancestor declaration as
obstructive, process the reference and unused events, then recurse into
the child scopes.  `is_in_with_scope` becomes true at a `with`-anchored
scope and stays true below it. -/
def _find_warnings (ancestors : List (ScopeId × ScopeData)) (sid : ScopeId)
    (s : Scope) (is_in_with_scope : Bool) (st : WarnState) : WarnState :=
  match s with
  | .mk d kids =>
    let is_in_with_scope := is_in_with_scope ||
      (match d.node with | some n => n.kind = TokKind.WITH | none => false)
    let chain := (sid, d) :: ancestors
    let unref := d.identifiers.foldl
      (fun u p => dictInsert (sid, p.1) p.2.node u) st.unreferenced
    let obst :=
      if ancestors.isEmpty then st.obstructive
      else d.identifiers.foldl
        (fun o p => if (resolve_identifier ancestors p.1).isSome
                    then o ++ [(sid, p.1, p.2.node)] else o) st.obstructive
    let ru := d.references.foldl (processReference chain is_in_with_scope sid)
      (unref, st.undeclared)
    let uu := d.unused.foldl (processUnused chain sid) ru
    _find_warnings_kids chain sid 0 kids is_in_with_scope ⟨uu.1, uu.2, obst⟩

/-- The recursion of `_find_warnings` into `self._kids`, numbering the
children to build their scope ids. -/
def _find_warnings_kids (chain : List (ScopeId × ScopeData)) (sid : ScopeId) (i : Nat)
    (kids : List Scope) (is_in_with_scope : Bool) (st : WarnState) : WarnState :=
  match kids with
  | [] => st
  | k :: rest =>
    _find_warnings_kids chain sid (i + 1) rest is_in_with_scope
      (_find_warnings chain (sid ++ [i]) k is_in_with_scope st)
end

/-- The ordering used on unreferenced entries:
`key=lambda x: x[2].start_offset` (line 144). -/
def unrefLE (a b : ScopeId × PyStr × Node) : Prop :=
  a.2.2.start_offset ≤ b.2.2.start_offset

instance : DecidableRel unrefLE := fun _ _ => Nat.decLe _ _

instance : IsTotal (ScopeId × PyStr × Node) unrefLE :=
  ⟨fun a b => Nat.le_total a.2.2.start_offset b.2.2.start_offset⟩

instance : IsTrans (ScopeId × PyStr × Node) unrefLE :=
  ⟨fun _ _ _ => Nat.le_trans⟩

/-- The result of `Scope.get_identifier_warnings` (lines 128-150). -/
structure IdentifierWarnings where
  unreferenced : List (ScopeId × PyStr × Node)
  undeclared : List (ScopeId × PyStr × Node)
  obstructive : List (ScopeId × PyStr × Node)
deriving Repr

/-- `Scope.get_identifier_warnings`: run the closure pass from the root
(with `is_in_with_scope = False`), convert the `unreferenced` dictionary
to `(scope, name, node)` entries and sort them by declaring-node start
offset (Python's stable `list.sort`, embedded as a stable insertion
sort). -/
def get_identifier_warnings (root : Scope) : IdentifierWarnings :=
  let st := _find_warnings [] [] root false ⟨[], [], []⟩
  { unreferenced :=
      List.insertionSort unrefLE (st.unreferenced.map fun p => (p.1.1, p.1.2, p.2)),
    undeclared := st.undeclared,
    obstructive := st.obstructive }

/-- Descend the scope tree along a scope id. -/
def Scope.findData : Scope → ScopeId → Option ScopeData
  | .mk d _, [] => some d
  | .mk _ kids, i :: rest =>
    match kids.get? i with
    | some k => k.findData rest
    | none => none

/-- `Scope.get_identifier_type` of the scope with the given id
(lines 114-118). -/
def get_identifier_type (root : Scope) (sid : ScopeId) (name : PyStr) : Option DeclType :=
  (root.findData sid).bind fun d => (dictLookup name d.identifiers).map fun i => i.type_

/-- The classification of line 555-566: `arg` reports
`unreferenced_argument`, `function` reports `unreferenced_function`,
`var` reports `unreferenced_variable`. -/
def unreferencedErrname : DeclType → String
  | .arg => "unreferenced_argument"
  | .function => "unreferenced_function"
  | .var => "unreferenced_variable"

/-- The body of the unreferenced-entry loop of `_lint_script_parts`
(lines 555-566), before the gate: entries of the outermost scope
(`ref_scope != scope`, root id `[]`) are skipped, the rest are classified
by their declaration kind.  Each report is
`(node.start_offset, errname, name)`. -/
def classifyUnreferenced (root : Scope) (e : ScopeId × PyStr × Node) :
    Option (Nat × String × PyStr) :=
  if e.1 = ([] : ScopeId) then none
  else
    match get_identifier_type root e.1 e.2.1 with
    | some t => some (e.2.2.start_offset, unreferencedErrname t, e.2.1)
    | none => none

/-- The unreferenced-entry loop of `_lint_script_parts` (lines 555-566),
before the gate, over the sorted unreferenced entries. -/
def unreferencedReports (root : Scope) : List (Nat × String × PyStr) :=
  (get_identifier_warnings root).unreferenced.filterMap (classifyUnreferenced root)

/-! ## `_warn_or_declare` (lines 585-595) and the formal-parameter loop of
`scope_checks._push_func` (lines 622-625) -/

/-- `_warn_or_declare`: resolve the name starting at the current scope
(the head of `self :: ancestors`).  A hit in the current scope itself
reports `var_hides_arg` when the colliding declaration is a formal
parameter (a `NAME` node with opcode `ARGNAME`) and `redeclared_var`
otherwise, keeping the identifier map unchanged; any other outcome adds
the declaration.  Returns the new identifier map of the current scope and
the names of the diagnostics passed to `report`. -/
def _warn_or_declare (self : List (PyStr × DeclInfo)) (ancestors : List (ScopeId × ScopeData))
    (name : PyStr) (type_ : DeclType) (node : Node) :
    List (PyStr × DeclInfo) × List String :=
  match resolve_identifier (([], ⟨none, self, [], []⟩) :: ancestors) name with
  | some (rsid, other) =>
    if rsid = ([] : ScopeId) then
      if other.kind = TokKind.NAME ∧ other.opcode = some Op.ARGNAME then
        (self, ["var_hides_arg"])
      else
        (self, ["redeclared_var"])
    else (dictInsert name ⟨node, type_⟩ self, [])
  | none => (dictInsert name ⟨node, type_⟩ self, [])

/-- One iteration of the formal-parameter loop of `_push_func`
(lines 622-625): if `get_identifier` already finds the name, report
`duplicate_formal`; then `add_declaration` runs unconditionally, so the
new parameter's entry replaces any existing one. -/
def declareFormalStep (acc : List (PyStr × DeclInfo) × List (String × Node))
    (var_name : Node) : List (PyStr × DeclInfo) × List (String × Node) :=
  let reps :=
    if (dictLookup var_name.atom.toList acc.1).isSome
    then acc.2 ++ [("duplicate_formal", var_name)]
    else acc.2
  (dictInsert var_name.atom.toList ⟨var_name, DeclType.arg⟩ acc.1, reps)

/-- The whole formal-parameter loop of `_push_func` over `node.fn_args`. -/
def declareFormals (self : List (PyStr × DeclInfo)) (fn_args : List Node) :
    List (PyStr × DeclInfo) × List (String × Node) :=
  fn_args.foldl declareFormalStep (self, [])

/-! ## The cross-script import graph (`_Script`, lines 222-245) -/

/-- A session of `n` scripts: each script's import edges (the `_imports`
set, embedded as a list since set iteration order is arbitrary) and
whether its outermost scope declares a name
(`self.scope.get_identifier(name)` truthiness). -/
structure ScriptGraph (n : Nat) where
  imports : Fin n → List (Fin n)
  declaresGlobal : Fin n → String → Bool

mutual
/-- `_Script._findglobal` (lines 230-245): return immediately when this
script was already searched; return this script when its own outermost
scope declares the name; otherwise add this script to the searched set
and search the imported scripts.  The searched set is shared across the
recursion (Python passes the set by reference), embedded by threading it
through and returning it; the subtype records that the set only grows,
which also gives termination on cyclic graphs. -/
def _findglobal {n : Nat} (g : ScriptGraph n) (name : String) (self : Fin n)
    (searched : Finset (Fin n)) :
    { r : Option (Fin n) × Finset (Fin n) // searched ⊆ r.2 } :=
  if self ∈ searched then ⟨(none, searched), Finset.Subset.refl _⟩
  else if g.declaresGlobal self name then ⟨(some self, searched), Finset.Subset.refl _⟩
  else
    let r := findglobalImports g name (g.imports self) (insert self searched)
    ⟨r.1, Finset.Subset.trans (Finset.subset_insert _ _) r.2⟩
termination_by ((Finset.univ \ searched).card, 0)
decreasing_by
  apply Prod.Lex.left
  apply Finset.card_lt_card
  constructor
  · exact Finset.sdiff_subset_sdiff (Finset.Subset.refl _) (Finset.subset_insert _ _)
  · intro hsub
    have h1 : self ∈ Finset.univ \ searched := by
      simp [Finset.mem_sdiff, *]
    have h2 := hsub h1
    simp [Finset.mem_sdiff] at h2

/-- The `for script in self._imports` loop of `_findglobal`
(lines 242-245): search each imported script in turn, propagating the
shared searched set, and stop at the first hit. -/
def findglobalImports {n : Nat} (g : ScriptGraph n) (name : String)
    (scripts : List (Fin n)) (searched : Finset (Fin n)) :
    { r : Option (Fin n) × Finset (Fin n) // searched ⊆ r.2 } :=
  match scripts with
  | [] => ⟨(none, searched), Finset.Subset.refl _⟩
  | s :: rest =>
    let r1 := _findglobal g name s searched
    match r1.1.1 with
    | some gl => ⟨(some gl, r1.1.2), r1.2⟩
    | none =>
      let r2 := findglobalImports g name rest r1.1.2
      ⟨r2.1, Finset.Subset.trans r1.2 r2.2⟩
termination_by ((Finset.univ \ searched).card, scripts.length + 1)
decreasing_by
  · apply Prod.Lex.right
    omega
  · have hsub : searched ⊆ r1.1.2 := r1.2
    have hle : (Finset.univ \ r1.1.2).card ≤ (Finset.univ \ searched).card :=
      Finset.card_le_card (Finset.sdiff_subset_sdiff (Finset.Subset.refl _) hsub)
    rcases Nat.lt_or_ge (Finset.univ \ r1.1.2).card (Finset.univ \ searched).card with hlt | hge
    · exact Prod.Lex.left _ _ hlt
    · have heq : (Finset.univ \ r1.1.2).card = (Finset.univ \ searched).card := by omega
      rw [heq]
      apply Prod.Lex.right
      simp
end

/-- `_Script.hasglobal` (lines 228-229): the search starts with an empty
searched set and the result is compared against `None`. -/
def hasglobal {n : Nat} (g : ScriptGraph n) (name : String) (self : Fin n) : Bool :=
  ((_findglobal g name self ∅).1.1).isSome

/-- One import edge of the graph. -/
def importsRel {n : Nat} (g : ScriptGraph n) (a b : Fin n) : Prop :=
  b ∈ g.imports a

/-- Reachability through import edges (reflexive-transitive closure of
single import edges); the specification's notion of a script reachable
from the starting script, the starting script included. -/
def Reaches {n : Nat} (g : ScriptGraph n) : Fin n → Fin n → Prop :=
  Relation.ReflTransGen (importsRel g)

/-- The `_globals` allow-list of lint.py (lines 24-34). -/
def pyGlobals : List PyStr :=
  ["Array".toList, "Boolean".toList, "Math".toList, "Number".toList,
   "String".toList, "RegExp".toList, "Script".toList, "Date".toList,
   "isNaN".toList, "isFinite".toList, "parseFloat".toList, "parseInt".toList,
   "eval".toList, "NaN".toList, "Infinity".toList,
   "escape".toList, "unescape".toList, "uneval".toList,
   "decodeURI".toList, "encodeURI".toList, "decodeURIComponent".toList,
   "encodeURIComponent".toList, "Function".toList, "Object".toList,
   "Error".toList, "InternalError".toList, "EvalError".toList,
   "RangeError".toList, "ReferenceError".toList, "SyntaxError".toList,
   "TypeError".toList, "URIError".toList, "arguments".toList, "undefined".toList]

/-- The undeclared-identifier loop of `_lint_script_parts`
(lines 548-554), before the gate: skip names in `conf['declarations']`,
skip the `_globals` allow-list, skip names some reachable script declares
(`hasglobal`), and report `undeclared_identifier` for the rest.  Names
cross the Python/`PyStr` boundary through `String.mk`. -/
def undeclaredReports {n : Nat} (g : ScriptGraph n) (script_cache : Fin n)
    (confDeclarations : List PyStr) (undeclared : List (ScopeId × PyStr × Node)) :
    List (PyStr × Node) :=
  undeclared.filterMap fun e =>
    if e.2.1 ∈ confDeclarations then none
    else if e.2.1 ∈ pyGlobals then none
    else if hasglobal g (String.mk e.2.1) script_cache then none
    else some (e.2.1, e.2.2)

/-! ## Concrete fixtures used by witnesses and counterexamples -/

/-- A `// jsl:ignore` comment at offsets 10-20. -/
def cIgnore : Node := .mk .COMMENT (some .CPP_COMMENT) "jsl:ignore" 0 10 20 none

/-- A `// jsl:bogus` comment (an unrecognized directive) at offsets 22-30. -/
def cBogus : Node := .mk .COMMENT (some .CPP_COMMENT) "jsl:bogus" 0 22 30 none

/-- A `// jsl:end` comment at offsets 32-40. -/
def cEnd : Node := .mk .COMMENT (some .CPP_COMMENT) "jsl:end" 0 32 40 none

/-- A second `// jsl:ignore` comment at offsets 50-60. -/
def cIgnore2 : Node := .mk .COMMENT (some .CPP_COMMENT) "jsl:ignore" 0 50 60 none

/-- A `// jsl:ignoreall` comment. -/
def cIgnoreAll : Node := .mk .COMMENT (some .CPP_COMMENT) "jsl:ignoreall" 0 5 18 none

/-- A `// jsl:option explicit` comment. -/
def cOptExpl : Node := .mk .COMMENT (some .CPP_COMMENT) "jsl:option explicit" 0 5 24 none

/-- The `SEMI` statement node of the standalone statement `a = 1;`. -/
def semiNode1 : Node := .mk .SEMI none "" 0 0 7 none

/-- The `ASSIGN` node of `a = 1;`, child of the `SEMI` node. -/
def assignNode1 : Node := .mk .ASSIGN none "" 0 0 6 (some semiNode1)

/-- The `NAME` node `a` in `a = 1;`: first child of the `ASSIGN`. -/
def refA1 : Node := .mk .NAME none "a" 0 0 1 (some assignNode1)

/-- The declaring node of `var a;`. -/
def declA : Node := .mk .NAME none "a" 0 10 11 none

/-- The declaring node of `var b;`. -/
def declB : Node := .mk .NAME none "b" 0 12 13 none

/-- A file scope for `var a; a = 1;`: `a` declared, referenced once as the
bare assignment target. -/
def T1 : Scope :=
  .mk ⟨none, [("a".toList, ⟨declA, .var⟩)], [("a".toList, refA1)], []⟩ []

/-- The `SEMI` statement node of the standalone statement `b = a;`. -/
def semiNode2 : Node := .mk .SEMI none "" 0 20 27 none

/-- The `ASSIGN` node of `b = a;`. -/
def assignNode2 : Node := .mk .ASSIGN none "" 0 20 26 (some semiNode2)

/-- The `NAME` node `b` in `b = a;`: first child of the `ASSIGN`. -/
def refB2 : Node := .mk .NAME none "b" 0 20 21 (some assignNode2)

/-- The `NAME` node `a` in `b = a;`: second child of the `ASSIGN`. -/
def refA2 : Node := .mk .NAME none "a" 1 24 25 (some assignNode2)

/-- A file scope for `var a; var b; b = a;`. -/
def T2 : Scope :=
  .mk ⟨none, [("a".toList, ⟨declA, .var⟩), ("b".toList, ⟨declB, .var⟩)],
       [("b".toList, refB2), ("a".toList, refA2)], []⟩ []

/-- The anchor node of a `with (obj) { ... }` statement. -/
def withNode : Node := .mk .WITH none "" 0 0 50 none

/-- A function node nested inside the `with` block. -/
def innerFnNode : Node := .mk .FUNCTION (some .CLOSURE) "g" 0 10 40 none

/-- A reference to the never-declared name `y`. -/
def refY : Node := .mk .NAME none "y" 0 20 21 none

/-- Scope tree of `with (obj) { y; function g() { y; } }`: the unresolved
`y` is referenced both in the `with` scope and in a scope nested inside
it. -/
def Twith : Scope :=
  .mk ⟨none, [], [], []⟩
    [ .mk ⟨some withNode, [], [("y".toList, refY)], []⟩
        [ .mk ⟨some innerFnNode, [], [("y".toList, refY)], []⟩ [] ] ]

/-- Scope tree of a bare `y;` at file level, `y` never declared. -/
def Tplain : Scope := .mk ⟨none, [], [("y".toList, refY)], []⟩ []

/-- First formal parameter `a` of a function `function f(a, a) {}`. -/
def p1 : Node := .mk .NAME (some .ARGNAME) "a" 0 1 2 none

/-- Second formal parameter `a` of `function f(a, a) {}`. -/
def p2 : Node := .mk .NAME (some .ARGNAME) "a" 1 5 6 none

/-- A function node anchoring a nested scope. -/
def funcNode8 : Node := .mk .FUNCTION (some .CLOSURE) "f" 0 0 30 none

/-- The declaring node of an unused `var x;` inside the function. -/
def declX : Node := .mk .NAME none "x" 0 15 16 none

/-- Scope tree of `function f() { var x; }` with `x` never referenced. -/
def T8 : Scope :=
  .mk ⟨none, [], [], []⟩
    [ .mk ⟨some funcNode8, [("x".toList, ⟨declX, .var⟩)], [], []⟩ [] ]

/-! ## Claim C9 -/

/-- Claim C9: parse errors whose message kind is one of
`anon_no_return_value`, `no_return_value`, `redeclared_var`,
`var_hides_arg` are silently discarded by the parse-error collector and
never reach the collected list, regardless of configuration or ignore
ranges (the collector consults neither); every other kind is appended. -/
theorem parse_error_discards_four_kinds (acc : List ParseError) (offset : Nat)
    (msg : String) (msg_args : List (String × String)) :
    (msg ∈ discardedParseErrorKinds → parse_error acc offset msg msg_args = acc) ∧
    (msg ∉ discardedParseErrorKinds →
      parse_error acc offset msg msg_args = acc ++ [⟨offset, msg, msg_args⟩]) := by
  constructor <;> intro h <;> simp [parse_error, h]

/-- Witness for C9: `redeclared_var` is discarded, `syntax_error` is
collected. -/
theorem parse_error_discards_four_kinds_witness :
    parse_error [] 3 "redeclared_var" [] = [] ∧
    parse_error [] 3 "syntax_error" [] = [⟨3, "syntax_error", []⟩] :=
  ⟨(parse_error_discards_four_kinds [] 3 "redeclared_var" []).1 (by decide),
   (parse_error_discards_four_kinds [] 3 "syntax_error" []).2 (by decide)⟩

/-! ## Claim C6 -/

/-- Claim C6 (code bug): when the parse succeeds and the collector holds
at least one parse error, the surfacing loop of lines 480-482 does not
report it through the gate: it destructures the collected 3-tuples into
two targets, which raises `ValueError` in Python.  Evaluated here at the
concrete collected error `(7, 'syntax_error', [])`. -/
theorem collected_parse_errors_never_surfaced :
    parse_error [] 7 "syntax_error" [] = [⟨7, "syntax_error", []⟩] ∧
    surfaceParseErrors (parse_error [] 7 "syntax_error" []) =
      Except.error "ValueError: too many values to unpack" :=
  ⟨rfl, rfl⟩

/-! ## Claim C10 -/

/-- Claim C10: a comment recognized as the `ignoreall` or
`option explicit` directive takes the recognized-directive branch of the
comment loop, where no keyword case matches: no diagnostic is produced
(in particular no unrecognized-directive diagnostic) and the state —
ignore ranges, open region, declarations, exemptions, import paths,
fallthru and pass markers, emitted findings — is returned unchanged. -/
theorem ignoreall_and_option_explicit_are_inert (conf : String → Option Bool)
    (st : CCState) (comment node : Node) (parms : PyStr)
    (h : _parse_control_comment comment = some (node, "ignoreall".toList, parms) ∨
         _parse_control_comment comment = some (node, "option explicit".toList, parms)) :
    processComment conf st comment = .ok st := by
  rcases h with h | h <;> simp [processComment, h]

/-- Witness for C10 at the concrete comments `jsl:ignoreall` and
`jsl:option explicit`. -/
theorem ignoreall_and_option_explicit_are_inert_witness :
    processComment confAll initCCState cIgnoreAll = .ok initCCState ∧
    processComment confAll initCCState cOptExpl = .ok initCCState :=
  ⟨ignoreall_and_option_explicit_are_inert confAll initCCState cIgnoreAll cIgnoreAll []
     (Or.inl rfl),
   ignoreall_and_option_explicit_are_inert confAll initCCState cOptExpl cOptExpl []
     (Or.inr rfl)⟩

/-! ## Dictionary lemmas -/

/-- A key outside a dictionary's key set looks up to nothing. -/
theorem dictLookup_eq_none_of_not_mem {κ ν : Type} [DecidableEq κ] (k : κ)
    (l : List (κ × ν)) (h : k ∉ l.map Prod.fst) : dictLookup k l = none := by
  induction l with
  | nil => rfl
  | cons p rest ih =>
    obtain ⟨k', v'⟩ := p
    simp only [List.map_cons, List.mem_cons] at h
    push_neg at h
    simp [dictLookup, h.1, ih h.2]

/-- Popping a key from a dictionary with no duplicate keys removes it. -/
theorem dictLookup_dictPop_of_nodup {κ ν : Type} [DecidableEq κ] (k : κ)
    (l : List (κ × ν)) (h : (l.map Prod.fst).Nodup) :
    dictLookup k (dictPop k l) = none := by
  induction l with
  | nil => rfl
  | cons p rest ih =>
    obtain ⟨k', v'⟩ := p
    simp only [List.map_cons, List.nodup_cons] at h
    by_cases hk : k = k'
    · subst hk
      simp only [dictPop, if_pos rfl]
      exact dictLookup_eq_none_of_not_mem k rest h.1
    · simp [dictPop, hk, dictLookup, ih h.2]

/-- Inserting a key makes it look up to the inserted value. -/
theorem dictLookup_dictInsert {κ ν : Type} [DecidableEq κ] (k : κ) (v : ν)
    (l : List (κ × ν)) : dictLookup k (dictInsert k v l) = some v := by
  induction l with
  | nil => simp [dictInsert, dictLookup]
  | cons p rest ih =>
    obtain ⟨k', v'⟩ := p
    by_cases hk : k = k'
    · simp [dictInsert, hk, dictLookup]
    · simp [dictInsert, hk, dictLookup, ih]

/-! ## Claim C1 -/

/-- Claim C1: in the closure pass, a reference whose name resolves pops
the `(declaring-scope, name)` key from the unreferenced dictionary —
except when the referencing node is the first child of an
`ASSIGN`/`INC`/`DEC` node whose own parent is a `SEMI` node, in which
case the dictionary is untouched.  Concretely, in the file scope of
`var a; a = 1;` the key `a` is still unreferenced after the pass, while
in `var a; var b; b = a;` the right-hand-side read of `a` removes it
(and the bare target `b` stays unreferenced). -/
theorem reference_resolution_updates_unreferenced :
    (∀ (chain : List (ScopeId × ScopeData)) (w : Bool) (sid rsid : ScopeId)
       (u : List ((ScopeId × PyStr) × Node)) (ud : List (ScopeId × PyStr × Node))
       (name : PyStr) (node dn : Node),
       resolve_identifier chain name = some (rsid, dn) →
       (isBareAssignmentTarget node = false →
          processReference chain w sid (u, ud) (name, node) =
            (dictPop (rsid, name) u, ud) ∧
          ((u.map Prod.fst).Nodup →
            dictLookup (rsid, name) (dictPop (rsid, name) u) = none)) ∧
       (isBareAssignmentTarget node = true →
          processReference chain w sid (u, ud) (name, node) = (u, ud))) ∧
    (dictLookup (([] : ScopeId), "a".toList)
      (_find_warnings [] [] T1 false ⟨[], [], []⟩).unreferenced).isSome = true ∧
    dictLookup (([] : ScopeId), "a".toList)
      (_find_warnings [] [] T2 false ⟨[], [], []⟩).unreferenced = none ∧
    (dictLookup (([] : ScopeId), "b".toList)
      (_find_warnings [] [] T2 false ⟨[], [], []⟩).unreferenced).isSome = true := by
  refine ⟨?_, by rfl, by rfl, by rfl⟩
  intro chain w sid rsid u ud name node dn hres
  constructor
  · intro hskip
    exact ⟨by simp [processReference, hres, hskip],
           fun hnd => dictLookup_dictPop_of_nodup _ _ hnd⟩
  · intro hskip
    simp [processReference, hres, hskip]

/-- Witness for C1: the bare target `a` of `a = 1;` leaves the dictionary
unchanged; the right-hand-side `a` of `b = a;` pops its key. -/
theorem reference_resolution_updates_unreferenced_witness :
    processReference [(([] : ScopeId), T1.data)] false []
        ([((([] : ScopeId), "a".toList), declA)], []) ("a".toList, refA1) =
      ([((([] : ScopeId), "a".toList), declA)], []) ∧
    processReference [(([] : ScopeId), T2.data)] false []
        ([((([] : ScopeId), "a".toList), declA)], []) ("a".toList, refA2) =
      (dictPop (([] : ScopeId), "a".toList) [((([] : ScopeId), "a".toList), declA)], []) :=
  ⟨(reference_resolution_updates_unreferenced.1 [(([] : ScopeId), T1.data)] false [] []
      [((([] : ScopeId), "a".toList), declA)] [] "a".toList refA1 declA rfl).2 rfl,
   ((reference_resolution_updates_unreferenced.1 [(([] : ScopeId), T2.data)] false [] []
      [((([] : ScopeId), "a".toList), declA)] [] "a".toList refA2 declA rfl).1 rfl).1⟩

/-! ## Claim C5 -/

/-- Claim C5: in the closure pass an unresolvable reference is recorded
as undeclared exactly when the scope is not inside a `with` scope.
Concretely, the scope tree of `with (obj) { y; function g() { y; } }`
records no undeclared entry for the never-declared `y` (also in the
scope nested inside the `with`), while a bare `y;` outside any `with`
records `y` as undeclared. -/
theorem undeclared_skipped_inside_with_scope :
    (∀ (chain : List (ScopeId × ScopeData)) (sid : ScopeId)
       (u : List ((ScopeId × PyStr) × Node)) (ud : List (ScopeId × PyStr × Node))
       (name : PyStr) (node : Node),
       resolve_identifier chain name = none →
       processReference chain true sid (u, ud) (name, node) = (u, ud) ∧
       processReference chain false sid (u, ud) (name, node) =
         (u, ud ++ [(sid, name, node)])) ∧
    (get_identifier_warnings Twith).undeclared = [] ∧
    ((get_identifier_warnings Tplain).undeclared.map fun e => e.2.1) = ["y".toList] := by
  refine ⟨?_, by rfl, by rfl⟩
  intro chain sid u ud name node hres
  constructor <;> simp [processReference, hres]

/-- Witness for C5: the unresolved `y` inside a `with` scope adds no
undeclared entry; outside one it does. -/
theorem undeclared_skipped_inside_with_scope_witness :
    processReference [] true [] ([], []) ("y".toList, refY) = ([], []) ∧
    processReference [] false [] ([], []) ("y".toList, refY) =
      ([], [(([] : ScopeId), "y".toList, refY)]) :=
  ⟨(undeclared_skipped_inside_with_scope.1 [] [] [] [] "y".toList refY rfl).1,
   (undeclared_skipped_inside_with_scope.1 [] [] [] [] "y".toList refY rfl).2⟩

/-! ## Claim C2 -/

/-- Counterexample for C2 as stated: in `function f(a, a) {}` the second
formal parameter reports `duplicate_formal` but its entry *overwrites*
the first in the scope's identifier map — the stored declaring node ends
up being the second parameter (start offset 5), not the original first
parameter (start offset 1). -/
theorem duplicate_formal_overwrites_entry :
    ((declareFormals [] [p1, p2]).2.map Prod.fst) = ["duplicate_formal"] ∧
    ((dictLookup "a".toList (declareFormals [] [p1, p2]).1).map
      fun i => i.node.start_offset) = some 5 ∧
    p1.start_offset = 1 ∧ p2.start_offset = 5 :=
  ⟨rfl, rfl, rfl, rfl⟩

/-- Claim C2 (amended): a declaration added through `_warn_or_declare`
whose name already has an entry in the same scope reports `var_hides_arg`
(when the colliding entry is a formal parameter) or `redeclared_var`
(otherwise) and keeps the scope's identifier map unchanged; a duplicate
formal parameter reports `duplicate_formal` but its entry *overwrites*
the original in the identifier map. -/
theorem conflicting_declarations_reported :
    (∀ (self : List (PyStr × DeclInfo)) (ancestors : List (ScopeId × ScopeData))
       (name : PyStr) (t : DeclType) (node : Node) (info : DeclInfo),
       dictLookup name self = some info →
       ((info.node.kind = TokKind.NAME ∧ info.node.opcode = some Op.ARGNAME) →
          _warn_or_declare self ancestors name t node = (self, ["var_hides_arg"])) ∧
       (¬(info.node.kind = TokKind.NAME ∧ info.node.opcode = some Op.ARGNAME) →
          _warn_or_declare self ancestors name t node = (self, ["redeclared_var"]))) ∧
    (∀ (ids : List (PyStr × DeclInfo)) (reps : List (String × Node)) (var_name : Node),
       (dictLookup var_name.atom.toList ids).isSome = true →
       declareFormalStep (ids, reps) var_name =
         (dictInsert var_name.atom.toList ⟨var_name, DeclType.arg⟩ ids,
          reps ++ [("duplicate_formal", var_name)]) ∧
       dictLookup var_name.atom.toList
           (dictInsert var_name.atom.toList ⟨var_name, DeclType.arg⟩ ids) =
         some ⟨var_name, DeclType.arg⟩) := by
  constructor
  · intro self ancestors name t node info hl
    have hres : resolve_identifier ((([] : ScopeId), ⟨none, self, [], []⟩) :: ancestors) name =
        some ([], info.node) := by
      simp [resolve_identifier, hl]
    constructor
    · intro harg
      simp [_warn_or_declare, hres, harg.1, harg.2]
    · intro harg
      simp only [_warn_or_declare, hres]
      rw [if_pos trivial, if_neg harg]
  · intro ids reps var_name hl
    have hne : ¬dictLookup var_name.atom.data ids = none := by
      intro h
      have h' : dictLookup var_name.atom.toList ids = none := h
      rw [h'] at hl
      simp at hl
    exact ⟨by simp [declareFormalStep, hl, hne], dictLookup_dictInsert _ _ _⟩

/-- Witness for C2 (amended): a `var a` colliding with the formal `a`
reports `var_hides_arg` and keeps the map; a `var b` colliding with the
declared `var b` reports `redeclared_var` and keeps the map; the second
formal `a` reports `duplicate_formal` and overwrites. -/
theorem conflicting_declarations_reported_witness :
    _warn_or_declare [("a".toList, ⟨p1, .arg⟩)] [] "a".toList .var declA =
      ([("a".toList, ⟨p1, .arg⟩)], ["var_hides_arg"]) ∧
    _warn_or_declare [("b".toList, ⟨declB, .var⟩)] [] "b".toList .var declB =
      ([("b".toList, ⟨declB, .var⟩)], ["redeclared_var"]) ∧
    declareFormalStep ([("a".toList, ⟨p1, .arg⟩)], []) p2 =
      (dictInsert "a".toList ⟨p2, DeclType.arg⟩ [("a".toList, ⟨p1, .arg⟩)],
       [("duplicate_formal", p2)]) :=
  ⟨((conflicting_declarations_reported.1 [("a".toList, ⟨p1, .arg⟩)] [] "a".toList .var declA
      ⟨p1, .arg⟩ rfl).1 (by exact ⟨rfl, rfl⟩)),
   ((conflicting_declarations_reported.1 [("b".toList, ⟨declB, .var⟩)] [] "b".toList .var declB
      ⟨declB, .var⟩ rfl).2 (by simp [declB, Node.opcode])),
   ((conflicting_declarations_reported.2 [("a".toList, ⟨p1, .arg⟩)] [] p2 rfl).1)⟩

/-! ## Claim C7 -/

/-- Claim C7: a second `ignore` while a region is open reports one
`mismatch_ctrl_comments` at that directive and leaves the first region
open (the state changes only by the emitted finding, so `start_ignore`
still holds the first directive); an `end` with no open region reports
one `mismatch_ctrl_comments` immediately at that directive; a region
still open at end of fragment reports one `mismatch_ctrl_comments` at
the opening directive's position. -/
theorem mismatch_ctrl_comments_cases (conf : String → Option Bool) (st : CCState)
    (c node si : Node) (parms : PyStr)
    (hconf : conf "mismatch_ctrl_comments" = some true) :
    (st.start_ignore = some si →
      _parse_control_comment c = some (node, "ignore".toList, parms) →
      inIgnores st.ignores node.start_offset = false →
      processComment conf st c =
        .ok { st with emitted := st.emitted ++ [(node.start_offset, "mismatch_ctrl_comments")] }) ∧
    (st.start_ignore = none →
      _parse_control_comment c = some (node, "end".toList, parms) →
      inIgnores st.ignores node.start_offset = false →
      processComment conf st c =
        .ok { st with emitted := st.emitted ++ [(node.start_offset, "mismatch_ctrl_comments")] }) ∧
    (st.start_ignore = some si →
      inIgnores st.ignores si.start_offset = false →
      finishComments conf st =
        .ok { st with emitted := st.emitted ++ [(si.start_offset, "mismatch_ctrl_comments")] }) := by
  refine ⟨fun hsi hp hig => ?_, fun hsi hp hig => ?_, fun hsi hig => ?_⟩
  · simp [processComment, hp, hsi, ccReport, _report, hconf, hig]
  · simp [processComment, hp, hsi, ccReport, _report, hconf, hig]
  · simp [finishComments, hsi, ccReport, _report, hconf, hig]

/-- Witness for C7, at concrete comment nodes: a second `jsl:ignore`
while one is open, a stray `jsl:end`, and an unmatched open region at
end of fragment. -/
theorem mismatch_ctrl_comments_cases_witness :
    processComment confAll { initCCState with start_ignore := some cIgnore } cIgnore2 =
      .ok { initCCState with
            start_ignore := some cIgnore, emitted := [(50, "mismatch_ctrl_comments")] } ∧
    processComment confAll initCCState cEnd =
      .ok { initCCState with emitted := [(32, "mismatch_ctrl_comments")] } ∧
    finishComments confAll { initCCState with start_ignore := some cIgnore } =
      .ok { initCCState with
            start_ignore := some cIgnore, emitted := [(10, "mismatch_ctrl_comments")] } :=
  ⟨(mismatch_ctrl_comments_cases confAll { initCCState with start_ignore := some cIgnore }
      cIgnore2 cIgnore2 cIgnore [] rfl).1 rfl rfl rfl,
   (mismatch_ctrl_comments_cases confAll initCCState cEnd cEnd cEnd [] rfl).2.1 rfl rfl rfl,
   (mismatch_ctrl_comments_cases confAll { initCCState with start_ignore := some cIgnore }
      cIgnore cIgnore cIgnore [] rfl).2.2 rfl rfl⟩

/-! ## Claim C3 -/

/-- Counterexample for C3 as stated: running the comment pass on
`// jsl:ignore` (10-20), `// jsl:bogus` (22-30), `// jsl:end` (32-40)
records the ignore range `(10, 40)` — which contains offset 22 — yet the
directive-syntax diagnostic `jsl_cc_not_understood` for the unrecognized
directive at offset 22 inside that region was emitted, because the range
is only recorded when the `end` directive is processed, after the
diagnostic already passed the gate. -/
theorem directive_diagnostic_inside_region_emitted :
    processComments confAll [cIgnore, cBogus, cEnd] =
      Except.ok { ignores := [(10, 40)], start_ignore := none, declares := [],
                  unused_identifiers := [], import_paths := [], fallthrus := [],
                  passes := [], emitted := [(22, "jsl_cc_not_understood")] } ∧
    inIgnores [(10, 40)] 22 = true :=
  ⟨rfl, rfl⟩

/-- Claim C3 (amended): a finding whose offset lies inside an ignore
range already recorded at the time it passes the gate is never emitted;
but ranges are recorded only when the `end` directive is processed, so a
directive-syntax diagnostic raised during the same comment scan for a
directive between a matched `ignore`/`end` pair is emitted before the
range exists (after scanning `jsl:ignore` then `jsl:bogus`, the
diagnostic is already emitted while `ignores` is still empty). -/
theorem gate_drops_findings_inside_recorded_range :
    (∀ (conf : String → Option Bool) (ignores : List (Nat × Nat)) (require_key : Bool)
       (offset : Nat) (errname : String) (s e : Nat),
       (s, e) ∈ ignores → s ≤ offset → offset ≤ e →
       _report conf ignores require_key offset errname ≠ GateOutcome.emitted ∧
       (conf errname = some true →
         _report conf ignores require_key offset errname = GateOutcome.dropped)) ∧
    ([cIgnore, cBogus].foldlM (processComment confAll) initCCState).map
        (fun st => (st.ignores, st.emitted)) =
      Except.ok ([], [(22, "jsl_cc_not_understood")]) := by
  refine ⟨?_, by rfl⟩
  intro conf ignores require_key offset errname s e hmem hs he
  have hin : inIgnores ignores offset = true := by
    simp only [inIgnores, List.any_eq_true]
    exact ⟨(s, e), hmem, by simp [hs, he]⟩
  constructor
  · rcases hc : conf errname with _ | b
    · rcases require_key <;> simp [_report, hc, hin]
    · rcases b <;> simp [_report, hc, hin]
  · intro hc
    simp [_report, hc, hin]

/-- Witness for C3 (amended), at a concrete recorded range. -/
theorem gate_drops_findings_inside_recorded_range_witness :
    _report confAll [(10, 40)] true 22 "jsl_cc_not_understood" ≠ GateOutcome.emitted ∧
    _report confAll [(10, 40)] true 22 "jsl_cc_not_understood" = GateOutcome.dropped :=
  ⟨(gate_drops_findings_inside_recorded_range.1 confAll [(10, 40)] true 22
      "jsl_cc_not_understood" 10 40 (by decide) (by decide) (by decide)).1,
   (gate_drops_findings_inside_recorded_range.1 confAll [(10, 40)] true 22
      "jsl_cc_not_understood" 10 40 (by decide) (by decide) (by decide)).2 rfl⟩

/-! ## Claim C8 -/

/-- Inversion of the classification step: a produced report comes from a
non-root entry whose declaration kind determines the diagnostic name. -/
theorem classifyUnreferenced_eq_some (root : Scope) (e : ScopeId × PyStr × Node)
    (r : Nat × String × PyStr) (h : classifyUnreferenced root e = some r) :
    e.1 ≠ ([] : ScopeId) ∧ ∃ t, get_identifier_type root e.1 e.2.1 = some t ∧
      r = (e.2.2.start_offset, unreferencedErrname t, e.2.1) := by
  by_cases h0 : e.1 = ([] : ScopeId)
  · simp [classifyUnreferenced, h0] at h
  · refine ⟨h0, ?_⟩
    rcases ht : get_identifier_type root e.1 e.2.1 with _ | t
    · simp [classifyUnreferenced, h0, ht] at h
    · simp [classifyUnreferenced, h0, ht] at h
      exact ⟨t, rfl, h.symm⟩

/-- Claim C8: the unreferenced entries returned by
`get_identifier_warnings` are sorted in nondecreasing order of the
declaring node's start offset; the resulting reports inherit that order;
and every report comes from an entry whose declaring scope is not the
outermost scope (root entries are never reported), classified by its
declaration kind through `unreferencedErrname`. -/
theorem unreferenced_reports_sorted_classified :
    (∀ root : Scope, List.Sorted unrefLE (get_identifier_warnings root).unreferenced) ∧
    (∀ root : Scope, List.Pairwise (fun x y : Nat × String × PyStr => x.1 ≤ y.1)
        (unreferencedReports root)) ∧
    (∀ (root : Scope) (r : Nat × String × PyStr), r ∈ unreferencedReports root →
        ∃ sid name node t,
          (sid, name, node) ∈ (get_identifier_warnings root).unreferenced ∧
          sid ≠ ([] : ScopeId) ∧
          get_identifier_type root sid name = some t ∧
          r = (node.start_offset, unreferencedErrname t, name)) := by
  have h1 : ∀ root : Scope, List.Sorted unrefLE (get_identifier_warnings root).unreferenced :=
    fun root => List.sorted_insertionSort unrefLE _
  refine ⟨h1, ?_, ?_⟩
  · intro root
    refine List.Pairwise.filterMap (classifyUnreferenced root) ?_ (h1 root)
    intro a b hab x hx y hy
    obtain ⟨_, t1, ht1, hx'⟩ :=
      classifyUnreferenced_eq_some root a x (Option.mem_def.mp hx)
    obtain ⟨_, t2, ht2, hy'⟩ :=
      classifyUnreferenced_eq_some root b y (Option.mem_def.mp hy)
    subst hx'
    subst hy'
    exact hab
  · intro root r hr
    rw [unreferencedReports, List.mem_filterMap] at hr
    obtain ⟨e, he, hfe⟩ := hr
    obtain ⟨h0, t, ht, hrt⟩ := classifyUnreferenced_eq_some root e r hfe
    exact ⟨e.1, e.2.1, e.2.2, t, he, h0, ht, hrt⟩

/-- Witness for C8: in `function f() { var x; }` the unused `x` of the
nested scope is reported as `unreferenced_variable`, and comes from a
non-root entry of its declaration kind. -/
theorem unreferenced_reports_sorted_classified_witness :
    (((15 : Nat), "unreferenced_variable", "x".toList) ∈ unreferencedReports T8) ∧
    ∃ sid name node t,
      (sid, name, node) ∈ (get_identifier_warnings T8).unreferenced ∧
      sid ≠ ([] : ScopeId) ∧
      get_identifier_type T8 sid name = some t ∧
      ((15 : Nat), "unreferenced_variable", "x".toList) =
        (node.start_offset, unreferencedErrname t, name) :=
  have hm : ((15 : Nat), "unreferenced_variable", "x".toList) ∈ unreferencedReports T8 :=
    List.Mem.head _
  ⟨hm, unreferenced_reports_sorted_classified.2.2 T8 _ hm⟩

/-! ## Claim C4: lemmas about the import-graph search -/

/-- Inserting an unsearched script strictly shrinks the unsearched
remainder. -/
theorem card_sdiff_insert_lt {n : Nat} (searched : Finset (Fin n)) (self : Fin n)
    (h : self ∉ searched) :
    (Finset.univ \ insert self searched).card < (Finset.univ \ searched).card := by
  apply Finset.card_lt_card
  constructor
  · exact Finset.sdiff_subset_sdiff (Finset.Subset.refl _) (Finset.subset_insert _ _)
  · intro hsub
    have h1 : self ∈ Finset.univ \ searched := by simp [Finset.mem_sdiff, h]
    have h2 := hsub h1
    simp [Finset.mem_sdiff] at h2

/-- A superset whose unsearched remainder has the same size is equal. -/
theorem sdiff_card_eq_imp_eq {n : Nat} {s t : Finset (Fin n)} (hsub : s ⊆ t)
    (hcard : (Finset.univ \ t).card = (Finset.univ \ s).card) : t = s := by
  have hs := Finset.card_sdiff (Finset.subset_univ s)
  have ht := Finset.card_sdiff (Finset.subset_univ t)
  have hcs := Finset.card_le_univ s
  have hct := Finset.card_le_univ t
  have hu : (Finset.univ : Finset (Fin n)).card = Fintype.card (Fin n) := Finset.card_univ
  have hc : s.card = t.card := by omega
  exact (Finset.eq_of_subset_of_card_le hsub (le_of_eq hc.symm)).symm

/-- Soundness of the search: a returned script declares the name and is
reachable from the starting script (for the import loop, from one of the
listed scripts).  Proved by strong induction on the number of unsearched
scripts. -/
theorem findglobal_some_spec {n : Nat} (g : ScriptGraph n) (name : String) :
    ∀ (k : Nat) (searched : Finset (Fin n)), (Finset.univ \ searched).card ≤ k →
      (∀ (self t : Fin n), (_findglobal g name self searched).1.1 = some t →
        g.declaresGlobal t name = true ∧ Reaches g self t) ∧
      (∀ (scripts : List (Fin n)) (t : Fin n),
        (findglobalImports g name scripts searched).1.1 = some t →
        g.declaresGlobal t name = true ∧ ∃ s ∈ scripts, Reaches g s t) := by
  intro k
  induction k using Nat.strong_induction_on with
  | _ k ih =>
  intro searched hk
  have FG : ∀ (self t : Fin n), (_findglobal g name self searched).1.1 = some t →
      g.declaresGlobal t name = true ∧ Reaches g self t := by
    intro self t hsome
    rw [_findglobal] at hsome
    by_cases h1 : self ∈ searched
    · simp [h1] at hsome
    · by_cases h2 : g.declaresGlobal self name = true
      · simp [h1, h2] at hsome
        subst hsome
        exact ⟨h2, Relation.ReflTransGen.refl⟩
      · simp [h1, h2] at hsome
        have hlt := card_sdiff_insert_lt searched self h1
        have hcall := (ih (Finset.univ \ insert self searched).card
            (lt_of_lt_of_le hlt hk) (insert self searched) le_rfl).2
            (g.imports self) t hsome
        obtain ⟨hdecl, s, hsmem, hreach⟩ := hcall
        exact ⟨hdecl, Relation.ReflTransGen.head hsmem hreach⟩
  refine ⟨FG, ?_⟩
  intro scripts
  induction scripts with
  | nil =>
    intro t ht
    rw [findglobalImports] at ht
    simp at ht
  | cons s rest ihl =>
    intro t ht
    rw [findglobalImports] at ht
    rcases hfg : (_findglobal g name s searched).1.1 with _ | gl
    · simp only [hfg] at ht
      have hsub : searched ⊆ (_findglobal g name s searched).1.2 :=
        (_findglobal g name s searched).2
      have hle : (Finset.univ \ (_findglobal g name s searched).1.2).card ≤
          (Finset.univ \ searched).card :=
        Finset.card_le_card (Finset.sdiff_subset_sdiff (Finset.Subset.refl _) hsub)
      rcases Nat.lt_or_ge (Finset.univ \ (_findglobal g name s searched).1.2).card
          (Finset.univ \ searched).card with hlt | hge
      · obtain ⟨hdecl, s', hs', hreach⟩ :=
          (ih _ (lt_of_lt_of_le hlt hk) _ le_rfl).2 rest t ht
        exact ⟨hdecl, s', List.mem_cons_of_mem _ hs', hreach⟩
      · have heq : (Finset.univ \ (_findglobal g name s searched).1.2).card =
            (Finset.univ \ searched).card := le_antisymm hle hge
        have hset := sdiff_card_eq_imp_eq hsub heq
        rw [hset] at ht
        obtain ⟨hdecl, s', hs', hreach⟩ := ihl t ht
        exact ⟨hdecl, s', List.mem_cons_of_mem _ hs', hreach⟩
    · simp only [hfg, Option.some.injEq] at ht
      subst ht
      obtain ⟨hdecl, hreach⟩ := FG s gl hfg
      exact ⟨hdecl, s, List.mem_cons_self _ _, hreach⟩

/-- Completeness of the search: when the search returns nothing, the
final searched set contains the starting script (each listed script, for
the import loop), and every newly searched script neither declares the
name nor has an import edge leaving the set — so nothing reachable
declares the name.  Proved by strong induction on the number of
unsearched scripts. -/
theorem findglobal_none_spec {n : Nat} (g : ScriptGraph n) (name : String) :
    ∀ (k : Nat) (searched : Finset (Fin n)), (Finset.univ \ searched).card ≤ k →
      (∀ self : Fin n, (_findglobal g name self searched).1.1 = none →
        self ∈ (_findglobal g name self searched).1.2 ∧
        (∀ a ∈ (_findglobal g name self searched).1.2, a ∉ searched →
          g.declaresGlobal a name = false ∧
          ∀ b ∈ g.imports a, b ∈ (_findglobal g name self searched).1.2)) ∧
      (∀ scripts : List (Fin n), (findglobalImports g name scripts searched).1.1 = none →
        (∀ x ∈ scripts, x ∈ (findglobalImports g name scripts searched).1.2) ∧
        (∀ a ∈ (findglobalImports g name scripts searched).1.2, a ∉ searched →
          g.declaresGlobal a name = false ∧
          ∀ b ∈ g.imports a, b ∈ (findglobalImports g name scripts searched).1.2)) := by
  intro k
  induction k using Nat.strong_induction_on with
  | _ k ih =>
  intro searched hk
  have FG : ∀ self : Fin n, (_findglobal g name self searched).1.1 = none →
      self ∈ (_findglobal g name self searched).1.2 ∧
      (∀ a ∈ (_findglobal g name self searched).1.2, a ∉ searched →
        g.declaresGlobal a name = false ∧
        ∀ b ∈ g.imports a, b ∈ (_findglobal g name self searched).1.2) := by
    intro self hnone
    by_cases h1 : self ∈ searched
    · have h11 : (_findglobal g name self searched).1 = (none, searched) := by
        rw [_findglobal]
        simp [h1]
      rw [h11]
      refine ⟨h1, ?_⟩
      intro a ha hnot
      exact absurd ha hnot
    · by_cases h2 : g.declaresGlobal self name = true
      · exfalso
        have h11 : (_findglobal g name self searched).1 = (some self, searched) := by
          rw [_findglobal]
          simp [h1, h2]
        rw [h11] at hnone
        simp at hnone
      · have h11 : (_findglobal g name self searched).1 =
            (findglobalImports g name (g.imports self) (insert self searched)).1 := by
          rw [_findglobal]
          simp [h1, h2]
        rw [h11] at hnone ⊢
        have hlt := card_sdiff_insert_lt searched self h1
        have B := (ih _ (lt_of_lt_of_le hlt hk) (insert self searched) le_rfl).2
          (g.imports self) hnone
        have hsubI : insert self searched ⊆
            (findglobalImports g name (g.imports self) (insert self searched)).1.2 :=
          (findglobalImports g name (g.imports self) (insert self searched)).2
        refine ⟨hsubI (Finset.mem_insert_self _ _), ?_⟩
        intro a ha hnot
        by_cases haself : a = self
        · subst haself
          refine ⟨by simpa using h2, B.1⟩
        · have hni : a ∉ insert self searched := by
            simp [Finset.mem_insert, haself, hnot]
          exact B.2 a ha hni
  refine ⟨FG, ?_⟩
  intro scripts
  induction scripts with
  | nil =>
    intro hnone
    have h11 : (findglobalImports g name ([] : List (Fin n)) searched).1 = (none, searched) := by
      rw [findglobalImports]
    rw [h11]
    refine ⟨by simp, ?_⟩
    intro a ha hnot
    exact absurd ha hnot
  | cons s rest ihl =>
    intro hnone
    rcases hfg : (_findglobal g name s searched).1.1 with _ | gl
    · have h11 : (findglobalImports g name (s :: rest) searched).1 =
          (findglobalImports g name rest (_findglobal g name s searched).1.2).1 := by
        rw [findglobalImports]
        simp [hfg]
      rw [h11] at hnone ⊢
      have A := FG s hfg
      have hsub1 : searched ⊆ (_findglobal g name s searched).1.2 :=
        (_findglobal g name s searched).2
      have hsub2 : (_findglobal g name s searched).1.2 ⊆
          (findglobalImports g name rest (_findglobal g name s searched).1.2).1.2 :=
        (findglobalImports g name rest (_findglobal g name s searched).1.2).2
      have hle : (Finset.univ \ (_findglobal g name s searched).1.2).card ≤
          (Finset.univ \ searched).card :=
        Finset.card_le_card (Finset.sdiff_subset_sdiff (Finset.Subset.refl _) hsub1)
      have B : (∀ x ∈ rest, x ∈
            (findglobalImports g name rest (_findglobal g name s searched).1.2).1.2) ∧
          (∀ a ∈ (findglobalImports g name rest (_findglobal g name s searched).1.2).1.2,
            a ∉ (_findglobal g name s searched).1.2 →
            g.declaresGlobal a name = false ∧
            ∀ b ∈ g.imports a,
              b ∈ (findglobalImports g name rest (_findglobal g name s searched).1.2).1.2) := by
        rcases Nat.lt_or_ge (Finset.univ \ (_findglobal g name s searched).1.2).card
            (Finset.univ \ searched).card with hlt | hge
        · exact (ih _ (lt_of_lt_of_le hlt hk) _ le_rfl).2 rest hnone
        · have heq : (Finset.univ \ (_findglobal g name s searched).1.2).card =
              (Finset.univ \ searched).card := le_antisymm hle hge
          have hset := sdiff_card_eq_imp_eq hsub1 heq
          rw [hset] at hnone ⊢
          exact ihl hnone
      constructor
      · intro x hx
        rcases List.mem_cons.mp hx with hxs | hxr
        · subst hxs
          exact hsub2 A.1
        · exact B.1 x hxr
      · intro a ha hnot
        by_cases haS1 : a ∈ (_findglobal g name s searched).1.2
        · obtain ⟨hd, him⟩ := A.2 a haS1 hnot
          exact ⟨hd, fun b hb => hsub2 (him b hb)⟩
        · exact B.2 a ha haS1
    · exfalso
      have h11 : (findglobalImports g name (s :: rest) searched).1.1 = some gl := by
        rw [findglobalImports]
        simp [hfg]
      rw [h11] at hnone
      simp at hnone

/-- Claim C4: `hasglobal` — whose embedding is a total function, so the
search terminates on every import graph, cyclic ones included — returns
`true` exactly when some script reachable through import edges from the
starting script (itself included) declares the name in its outermost
scope; and the undeclared-identifier loop never reports a name for which
`hasglobal` holds. -/
theorem hasglobal_iff_reachable_declaration :
    (∀ (n : Nat) (g : ScriptGraph n) (name : String) (self : Fin n),
       hasglobal g name self = true ↔
         ∃ t, Reaches g self t ∧ g.declaresGlobal t name = true) ∧
    (∀ (n : Nat) (g : ScriptGraph n) (script_cache : Fin n)
       (confDeclarations : List PyStr) (undeclared : List (ScopeId × PyStr × Node))
       (name : PyStr) (node : Node),
       hasglobal g (String.mk name) script_cache = true →
       (name, node) ∉ undeclaredReports g script_cache confDeclarations undeclared) := by
  constructor
  · intro n g name self
    constructor
    · intro h
      rw [hasglobal] at h
      rcases hsome : (_findglobal g name self ∅).1.1 with _ | t
      · rw [hsome] at h
        simp at h
      · obtain ⟨hdecl, hreach⟩ :=
          (findglobal_some_spec g name (Finset.univ \ ∅).card ∅ le_rfl).1 self t hsome
        exact ⟨t, hreach, hdecl⟩
    · rintro ⟨t, hreach, hdecl⟩
      by_contra hfalse
      have hnone : (_findglobal g name self ∅).1.1 = none := by
        rcases h : (_findglobal g name self ∅).1.1 with _ | g'
        · rfl
        · rw [hasglobal, h] at hfalse
          simp at hfalse
      obtain ⟨hself, hclosed⟩ :=
        (findglobal_none_spec g name (Finset.univ \ ∅).card ∅ le_rfl).1 self hnone
      have hS : ∀ u, Reaches g self u → u ∈ (_findglobal g name self ∅).1.2 := by
        intro u hu
        induction hu with
        | refl => exact hself
        | tail _ hbc ihu =>
          exact (hclosed _ ihu (Finset.not_mem_empty _)).2 _ hbc
      have hdead := (hclosed t (hS t hreach) (Finset.not_mem_empty _)).1
      rw [hdecl] at hdead
      simp at hdead
  · intro n g script_cache confDeclarations undeclared name node hglob hmem
    rw [undeclaredReports, List.mem_filterMap] at hmem
    obtain ⟨e, hemem, hfe⟩ := hmem
    by_cases hc1 : e.2.1 ∈ confDeclarations
    · simp [hc1] at hfe
    · by_cases hc2 : e.2.1 ∈ pyGlobals
      · simp [hc1, hc2] at hfe
      · by_cases hc3 : hasglobal g (String.mk e.2.1) script_cache = true
        · simp [hc1, hc2, hc3] at hfe
        · simp [hc1, hc2, hc3] at hfe
          rw [congrArg Prod.fst hfe] at hc3
          exact hc3 hglob

/-- A two-script session: script 0 declares the top-level name `foo`,
script 1 imports script 0, and script 0 imports script 1 back, so the
graph is cyclic. -/
def gCyc : ScriptGraph 2 where
  imports := fun i => if i = 0 then [1] else [0]
  declaresGlobal := fun i s => decide (i = 0) && decide (s = "foo")

/-- Witness for C4: in the cyclic two-script session, `hasglobal` from
script 1 finds `foo` (declared by the imported script 0), and the
undeclared loop does not report `foo` for script 1. -/
theorem hasglobal_iff_reachable_declaration_witness :
    hasglobal gCyc "foo" 1 = true ∧
    ("foo".toList, refY) ∉
      undeclaredReports gCyc 1 [] [(([] : ScopeId), "foo".toList, refY)] :=
  have h1 : hasglobal gCyc "foo" 1 = true :=
    (hasglobal_iff_reachable_declaration.1 2 gCyc "foo" 1).mpr
      ⟨0, Relation.ReflTransGen.single (show (0 : Fin 2) ∈ gCyc.imports 1 by decide),
        by decide⟩
  ⟨h1, hasglobal_iff_reachable_declaration.2 2 gCyc 1 [] [(([] : ScopeId), "foo".toList, refY)]
    "foo".toList refY h1⟩
